import Mathlib

/-!
Verification development for the CREDGEN credential store
(`src/models/database.py`, class `CredentialDatabase`).

The SQLite-backed store is shallowly embedded as a pure state-passing
model: the two persistent relations that the operations touch
(`credentials` and `password_history`) are lists of rows, AUTOINCREMENT
row ids are explicit counters, and SQL timestamps (`CURRENT_TIMESTAMP`)
are a `now : Nat` parameter supplied to each operation.

The Fernet cipher comes from the external `cryptography` library, which
is not part of the repository's sources; it is modelled from the spec as
an abstract `Cipher` (authenticated encrypt/decrypt with round-trip).

A deliberately faithful point: the Python `sqlite3` module never runs
`PRAGMA foreign_keys = ON`, and the code does not either, so the
`ON DELETE CASCADE` clause declared on `password_history.credential_id`
is NOT enforced at runtime.  The model therefore does not cascade
deletes and does not reject history rows whose `credential_id` has no
matching credential, exactly like the running program.
-/

/-- A row of the `credentials` table (schema in `_create_tables`). -/
structure Credential where
  id : Nat
  service_name : String
  username : String
  email : Option String
  password_encrypted : String
  password_strength : String
  notes : Option String
  category : Option String
  created_at : Nat
  updated_at : Nat
  last_accessed : Option Nat
deriving DecidableEq, Repr

/-- A row of the `password_history` table. -/
structure HistoryEntry where
  id : Nat
  credential_id : Nat
  password_encrypted : String
  generated_at : Nat
deriving DecidableEq, Repr

/-- The persistent state owned by `CredentialDatabase`: the two relations
the operations read and write, plus the AUTOINCREMENT counters.
(The `generation_settings` table is never touched by any operation.) -/
structure DBState where
  credentials : List Credential
  history : List HistoryEntry
  nextCredId : Nat
  nextHistId : Nat
deriving DecidableEq, Repr

/-- Fresh database: both tables empty, AUTOINCREMENT counters at 1
(SQLite assigns rowid 1 to the first insert). -/
def emptyDB : DBState := { credentials := [], history := [], nextCredId := 1, nextHistId := 1 }

/-- Modelled from the spec: the Fernet cipher of the external
`cryptography` library (`self._cipher_suite`), absent from `src/`.
Per spec section 4.2 it provides authenticated `encrypt`/`decrypt` of
password strings; `decrypt` fails (raises, here `none`) on malformed or
unauthenticated ciphertext, and decrypting a value produced by `encrypt`
returns the original plaintext. -/
structure Cipher where
  encrypt : String → String
  decrypt : String → Option String
  roundtrip : ∀ s, decrypt (encrypt s) = some s

/-- A concrete cipher instance used to evaluate the model on closed
inputs: `encrypt` prepends a marker character, `decrypt` strips it and
fails on any string that does not carry it. -/
def toyCipher : Cipher where
  encrypt s := String.mk ('!' :: s.data)
  decrypt s :=
    match s.data with
    | '!' :: cs => some (String.mk cs)
    | _ => none
  roundtrip := by
    intro s
    cases s
    rfl

/-- `_encrypt_password`: encrypt a plaintext password with the cipher. -/
def encrypt_password (c : Cipher) (password : String) : String :=
  c.encrypt password

/-- `_decrypt_password`: decrypt a stored ciphertext; `none` models the
exception raised by Fernet on bad input. -/
def decrypt_password (c : Cipher) (encrypted_password : String) : Option String :=
  c.decrypt encrypted_password

/-- The fixed punctuation set of `_calculate_password_strength`
(the braces are written as hex escapes). -/
def symbolChars : List Char := "!@#$%^&*()_+-=[]\x7b\x7d|;:,.<>?".data

/-- The accumulated score of `_calculate_password_strength`: one point per
satisfied condition, in source order. -/
def passwordScore (password : String) : Nat :=
  (if password.length ≥ 12 then 1 else 0) +
  (if password.length ≥ 16 then 1 else 0) +
  (if password.data.any (fun ch => ch.isUpper) then 1 else 0) +
  (if password.data.any (fun ch => ch.isLower) then 1 else 0) +
  (if password.data.any (fun ch => ch.isDigit) then 1 else 0) +
  (if password.data.any (fun ch => symbolChars.contains ch) then 1 else 0)

/-- `_calculate_password_strength`: threshold the score. -/
def calculate_password_strength (password : String) : String :=
  if passwordScore password ≥ 5 then "Strong"
  else if passwordScore password ≥ 3 then "Medium"
  else "Weak"

/-- The dictionaries returned by the mutating operations
(`success` flag, human-readable `message`, and for `add_credential` the
new row `id`). -/
structure OpResult where
  success : Bool
  message : String
  id : Option Nat := none
deriving DecidableEq, Repr

/-- `add_credential`: encrypt, score, insert the credential row and one
matching history row.  A duplicate `(service_name, username)` violates
the table's UNIQUE constraint: the INSERT raises `IntegrityError` before
anything is written and the handler returns a failure dict, leaving the
state untouched. -/
def add_credential (db : DBState) (c : Cipher) (now : Nat)
    (service_name username password : String)
    (email notes : Option String) (category : String) : OpResult × DBState :=
  if db.credentials.any (fun r => r.service_name == service_name && r.username == username) then
    ({ success := false, message := "Credential already exists: " ++ service_name ++ " - " ++ username }, db)
  else
    let encrypted_pwd := encrypt_password c password
    let strength := calculate_password_strength password
    let credential_id := db.nextCredId
    let cred : Credential :=
      { id := credential_id, service_name := service_name, username := username,
        email := email, password_encrypted := encrypted_pwd, password_strength := strength,
        notes := notes, category := some category,
        created_at := now, updated_at := now, last_accessed := none }
    let hist : HistoryEntry :=
      { id := db.nextHistId, credential_id := credential_id,
        password_encrypted := encrypted_pwd, generated_at := now }
    ({ success := true, message := "Credential saved: " ++ service_name, id := some credential_id },
     { credentials := db.credentials ++ [cred], history := db.history ++ [hist],
       nextCredId := db.nextCredId + 1, nextHistId := db.nextHistId + 1 })

/-- The dict returned by `get_credential_by_id`: `SELECT *` columns with
`password_encrypted` deleted and the decrypted `password` added. -/
structure CredRecord where
  id : Nat
  service_name : String
  username : String
  email : Option String
  password : String
  password_strength : String
  notes : Option String
  category : Option String
  created_at : Nat
  updated_at : Nat
  last_accessed : Option Nat
deriving DecidableEq, Repr

/-- `get_credential_by_id`: first the UPDATE touching `last_accessed`,
then the SELECT (which therefore observes the touched row), then the
commit, then decryption.  A decryption failure is caught by the
`except` clause and masked as `None`; the `last_accessed` touch was
already committed, so the state change survives. -/
def get_credential_by_id (db : DBState) (c : Cipher) (now : Nat)
    (credential_id : Nat) : Option CredRecord × DBState :=
  let touched := db.credentials.map
    (fun r => if r.id == credential_id then { r with last_accessed := some now } else r)
  let db1 : DBState := { db with credentials := touched }
  match db1.credentials.find? (fun r => r.id == credential_id) with
  | some r =>
    match decrypt_password c r.password_encrypted with
    | some pw =>
      (some { id := r.id, service_name := r.service_name, username := r.username,
              email := r.email, password := pw, password_strength := r.password_strength,
              notes := r.notes, category := r.category, created_at := r.created_at,
              updated_at := r.updated_at, last_accessed := r.last_accessed }, db1)
    | none => (none, db1)
  | none => (none, db1)

/-- The keyword arguments accepted by `update_credential`: each field is
either absent from `kwargs` (`none`) or supplied with a value.  The
nullable columns can be supplied as SQL NULL (`some none`). -/
structure UpdateFields where
  password : Option String := none
  service_name : Option String := none
  username : Option String := none
  email : Option (Option String) := none
  notes : Option (Option String) := none
  category : Option (Option String) := none
deriving DecidableEq, Repr

/-- The single UPDATE statement of `update_credential` applied to one
row: all supplied columns at once, plus `updated_at = CURRENT_TIMESTAMP`. -/
def applyFields (r : Credential) (passUpd : Option (String × String))
    (f : UpdateFields) (now : Nat) : Credential :=
  { r with
    password_encrypted := (passUpd.map Prod.fst).getD r.password_encrypted,
    password_strength := (passUpd.map Prod.snd).getD r.password_strength,
    service_name := f.service_name.getD r.service_name,
    username := f.username.getD r.username,
    email := f.email.getD r.email,
    notes := f.notes.getD r.notes,
    category := f.category.getD r.category,
    updated_at := now }

/-- `update_credential`.  Faithful quirks of the source:
the history INSERT happens first whenever a password is supplied, with
no check that `credential_id` exists (no enforced foreign key); the
UPDATE never inspects `cursor.rowcount`, so updating a nonexistent id
still commits (including that history row) and returns success. -/
def update_credential (db : DBState) (c : Cipher) (now : Nat)
    (credential_id : Nat) (f : UpdateFields) : OpResult × DBState :=
  let passUpd : Option (String × String) :=
    match f.password with
    | some pw => some (encrypt_password c pw, calculate_password_strength pw)
    | none => none
  let db1 : DBState :=
    match passUpd with
    | some (enc, _) =>
      { db with
        history := db.history ++
          [{ id := db.nextHistId, credential_id := credential_id,
             password_encrypted := enc, generated_at := now }],
        nextHistId := db.nextHistId + 1 }
    | none => db
  if f.password.isSome || f.service_name.isSome || f.username.isSome ||
     f.email.isSome || f.notes.isSome || f.category.isSome then
    let updated := db1.credentials.map
      (fun r => if r.id == credential_id then applyFields r passUpd f now else r)
    ({ success := true, message := "Credential updated" }, { db1 with credentials := updated })
  else
    ({ success := false, message := "No updates provided" }, db1)

/-- `delete_credential`: `DELETE FROM credentials WHERE id = ?` and a
`rowcount` check.  The `password_history` table is untouched: the
declared `ON DELETE CASCADE` never fires because the connection never
enables `PRAGMA foreign_keys` (off by default in sqlite3). -/
def delete_credential (db : DBState) (credential_id : Nat) : OpResult × DBState :=
  let remaining := db.credentials.filter (fun r => !(r.id == credential_id))
  if remaining.length < db.credentials.length then
    ({ success := true, message := "Credential deleted" }, { db with credentials := remaining })
  else
    ({ success := false, message := "Credential not found" }, db)

/-- SQLite BINARY collation on TEXT: lexicographic comparison of the
UTF-8 encodings, equivalently of the code points. -/
def charListLe : List Char → List Char → Bool
  | [], _ => true
  | _ :: _, [] => false
  | a :: as, b :: bs =>
    if a.toNat < b.toNat then true
    else if b.toNat < a.toNat then false
    else charListLe as bs

/-- String comparison used by ORDER BY. -/
def strLe (a b : String) : Bool := charListLe a.data b.data

/-- Insert one element into a list sorted by `le` (models the ordering
performed by ORDER BY; SQLite's order among ties is unspecified, the
model picks the stable one). -/
def insertBy (le : α → α → Bool) (x : α) : List α → List α
  | [] => [x]
  | y :: ys => if le x y then x :: y :: ys else y :: insertBy le x ys

/-- Sort a list by `le` (insertion sort). -/
def sortBy (le : α → α → Bool) : List α → List α
  | [] => []
  | x :: xs => insertBy le x (sortBy le xs)

/-- ORDER BY service_name, username of `get_all_credentials`. -/
def credLeSU (a b : Credential) : Bool :=
  if a.service_name == b.service_name then strLe a.username b.username
  else strLe a.service_name b.service_name

/-- ORDER BY service_name of `search_credentials`. -/
def credLeService (a b : Credential) : Bool :=
  strLe a.service_name b.service_name

/-- The dict produced per row by `get_all_credentials`: the SELECTed
columns, `password_encrypted` deleted, `password` present only when
`decrypt_passwords` was set. -/
structure AllRecord where
  id : Nat
  service_name : String
  username : String
  email : Option String
  password : Option String
  password_strength : String
  notes : Option String
  category : Option String
  created_at : Nat
  updated_at : Nat
deriving DecidableEq, Repr

/-- Build one `get_all_credentials` dict from a row. -/
def mkAllRecord (r : Credential) (pw : Option String) : AllRecord :=
  { id := r.id, service_name := r.service_name, username := r.username,
    email := r.email, password := pw, password_strength := r.password_strength,
    notes := r.notes, category := r.category,
    created_at := r.created_at, updated_at := r.updated_at }

/-- The result-building loop of `get_all_credentials` when
`decrypt_passwords` is set: one failed decryption raises, aborting the
whole loop (`none`). -/
def decryptAll (c : Cipher) : List Credential → Option (List AllRecord)
  | [] => some []
  | r :: rs =>
    match decrypt_password c r.password_encrypted with
    | none => none
    | some pw =>
      match decryptAll c rs with
      | none => none
      | some l => some (mkAllRecord r (some pw) :: l)

/-- `get_all_credentials`: SELECT ordered by (service_name, username);
with `decrypt_passwords` a decryption failure is caught by the `except`
clause and the call returns the empty list. -/
def get_all_credentials (db : DBState) (c : Cipher) (decrypt_passwords : Bool) : List AllRecord :=
  let sorted := sortBy credLeSU db.credentials
  if decrypt_passwords then
    match decryptAll c sorted with
    | some l => l
    | none => []
  else
    sorted.map (fun r => mkAllRecord r none)

/-- ASCII case folding as performed by SQLite's default LIKE. -/
def lowerNat (ch : Char) : Nat :=
  if 65 ≤ ch.toNat ∧ ch.toNat ≤ 90 then ch.toNat + 32 else ch.toNat

/-- SQLite LIKE pattern matching: `%` matches any sequence, `_` matches
any single character, other characters match ASCII-case-insensitively.
The fuel argument only bounds the recursion; every step shrinks
`pattern.length + text.length`, so `pattern.length + text.length + 1`
fuel always suffices and the `0` branch is never reached from `like`. -/
def likeFuel : Nat → List Char → List Char → Bool
  | 0, _, _ => false
  | fuel + 1, ps, t =>
    match ps, t with
    | [], t => t.isEmpty
    | '%' :: ps, t =>
      likeFuel fuel ps t ||
        (match t with
         | [] => false
         | _ :: ts => likeFuel fuel ('%' :: ps) ts)
    | '_' :: ps, t =>
      (match t with
       | [] => false
       | _ :: ts => likeFuel fuel ps ts)
    | p :: ps, t =>
      (match t with
       | [] => false
       | ch :: ts => (lowerNat p == lowerNat ch) && likeFuel fuel ps ts)

/-- `text LIKE pattern` with SQLite's default (ASCII-case-insensitive)
semantics. -/
def like (pattern text : String) : Bool :=
  likeFuel (pattern.data.length + text.data.length + 1) pattern.data text.data

/-- The WHERE clause of `search_credentials` on one row: the pattern
`%term%` is LIKE-matched against the four columns; a NULL column never
matches (SQL three-valued logic). -/
def credMatches (term : String) (r : Credential) : Bool :=
  let pat := "%" ++ term ++ "%"
  like pat r.service_name || like pat r.username ||
    (match r.email with | some e => like pat e | none => false) ||
    (match r.category with | some cg => like pat cg | none => false)

/-- The row shape returned by `search_credentials`: only the six
SELECTed columns — neither `password_encrypted` nor any plaintext
password field exists in it. -/
structure SearchRecord where
  id : Nat
  service_name : String
  username : String
  email : Option String
  password_strength : String
  category : Option String
deriving DecidableEq, Repr

/-- Project a row onto the search SELECT list. -/
def toSearchRecord (r : Credential) : SearchRecord :=
  { id := r.id, service_name := r.service_name, username := r.username,
    email := r.email, password_strength := r.password_strength, category := r.category }

/-- `search_credentials`: filter by the LIKE clause, ORDER BY
service_name, return only the SELECTed columns. -/
def search_credentials (db : DBState) (search_term : String) : List SearchRecord :=
  (sortBy credLeService (db.credentials.filter (credMatches search_term))).map toSearchRecord

/-- The dict returned by `get_statistics`: total count plus the two
GROUP BY rollups, each as (key, count) rows. -/
structure Stats where
  total_credentials : Nat
  by_category : List (Option String × Nat)
  by_strength : List (String × Nat)
deriving DecidableEq, Repr

/-- GROUP BY key, COUNT(*): one row per distinct key with its
multiplicity. -/
def groupCounts [DecidableEq α] (l : List α) : List (α × Nat) :=
  l.dedup.map (fun k => (k, l.count k))

/-- `get_statistics`. -/
def get_statistics (db : DBState) : Stats :=
  { total_credentials := db.credentials.length,
    by_category := groupCounts (db.credentials.map (fun r => r.category)),
    by_strength := groupCounts (db.credentials.map (fun r => r.password_strength)) }

/-- Modelled from the spec: plain case-insensitive-substring matching,
the reading of "substring (case-insensitive) match" in the search
contract, used to compare against the LIKE semantics the code actually
has.  `specIsPrefixCI a b` tests whether `a` is a case-insensitive
prefix of `b`. -/
def specIsPrefixCI : List Char → List Char → Bool
  | [], _ => true
  | _ :: _, [] => false
  | a :: as, b :: bs => (lowerNat a == lowerNat b) && specIsPrefixCI as bs

/-- Modelled from the spec: `specSubstringCI term s` is true when `term`
occurs in `s` up to ASCII case. -/
def specContainsCI (needle : List Char) : List Char → Bool
  | [] => needle.isEmpty
  | b :: bs => specIsPrefixCI needle (b :: bs) || specContainsCI needle bs

/-- Modelled from the spec: case-insensitive substring test on strings. -/
def specSubstringCI (term s : String) : Bool :=
  specContainsCI term.data s.data

/-- A concrete stored credential used to evaluate the model: ciphertext
as produced by `toyCipher.encrypt "pw"`. -/
def ghCred : Credential :=
  { id := 1, service_name := "GitHub", username := "alice", email := none,
    password_encrypted := "!pw", password_strength := "Weak", notes := none,
    category := some "General", created_at := 0, updated_at := 0, last_accessed := none }

/-- A store holding `ghCred` and its history row. -/
def oneDB : DBState :=
  { credentials := [ghCred],
    history := [{ id := 1, credential_id := 1, password_encrypted := "!pw", generated_at := 0 }],
    nextCredId := 2, nextHistId := 2 }

/-- A store whose only credential carries a ciphertext that
`toyCipher.decrypt` rejects. -/
def badDB : DBState :=
  { credentials := [{ ghCred with password_encrypted := "garbage" }], history := [],
    nextCredId := 2, nextHistId := 1 }

/-- `charListLe` is total. -/
theorem charListLe_total : ∀ x y : List Char, charListLe x y = true ∨ charListLe y x = true
  | [], _ => Or.inl rfl
  | _ :: _, [] => Or.inr rfl
  | a :: as, b :: bs => by
    rcases Nat.lt_trichotomy a.toNat b.toNat with h | h | h
    · left; simp [charListLe, h]
    · have h1 : ¬ a.toNat < b.toNat := by omega
      have h2 : ¬ b.toNat < a.toNat := by omega
      rcases charListLe_total as bs with ih | ih
      · left; simp [charListLe, h1, h2, ih]
      · right; simp [charListLe, h1, h2, ih]
    · right; simp [charListLe, h]

/-- `charListLe` is transitive. -/
theorem charListLe_trans : ∀ x y z : List Char,
    charListLe x y = true → charListLe y z = true → charListLe x z = true
  | [], _, _, _, _ => rfl
  | _ :: _, [], _, hxy, _ => by simp [charListLe] at hxy
  | _ :: _, _ :: _, [], _, hyz => by simp [charListLe] at hyz
  | a :: as, b :: bs, c :: cs, hxy, hyz => by
    simp only [charListLe] at hxy hyz ⊢
    rcases Nat.lt_trichotomy a.toNat b.toNat with hab | hab | hab
    · rcases Nat.lt_trichotomy b.toNat c.toNat with hbc | hbc | hbc
      · simp [show a.toNat < c.toNat by omega]
      · simp [show a.toNat < c.toNat by omega]
      · simp [show ¬ b.toNat < c.toNat by omega, hbc] at hyz
    · rcases Nat.lt_trichotomy b.toNat c.toNat with hbc | hbc | hbc
      · simp [show a.toNat < c.toNat by omega]
      · have hxy' : charListLe as bs = true := by
          simpa [show ¬ a.toNat < b.toNat by omega, show ¬ b.toNat < a.toNat by omega] using hxy
        have hyz' : charListLe bs cs = true := by
          simpa [show ¬ b.toNat < c.toNat by omega, show ¬ c.toNat < b.toNat by omega] using hyz
        simp [show ¬ a.toNat < c.toNat by omega, show ¬ c.toNat < a.toNat by omega,
          charListLe_trans as bs cs hxy' hyz']
      · simp [show ¬ b.toNat < c.toNat by omega, hbc] at hyz
    · simp [show ¬ a.toNat < b.toNat by omega, hab] at hxy

/-- Membership through `insertBy`. -/
theorem mem_insertBy {le : α → α → Bool} {x a : α} {l : List α} :
    a ∈ insertBy le x l ↔ a = x ∨ a ∈ l := by
  induction l with
  | nil => simp [insertBy]
  | cons y ys ih =>
    by_cases h : le x y = true
    · simp [insertBy, h]
    · simp [insertBy, h, ih]
      tauto

/-- `sortBy` neither adds nor removes elements. -/
theorem mem_sortBy {le : α → α → Bool} {a : α} {l : List α} :
    a ∈ sortBy le l ↔ a ∈ l := by
  induction l with
  | nil => simp [sortBy]
  | cons x xs ih => simp [sortBy, mem_insertBy, ih]

/-- `insertBy` preserves sortedness for a total transitive comparator. -/
theorem pairwise_insertBy {le : α → α → Bool}
    (htot : ∀ a b, le a b = true ∨ le b a = true)
    (htrans : ∀ a b c, le a b = true → le b c = true → le a c = true)
    {x : α} {l : List α} (hl : l.Pairwise (fun a b => le a b = true)) :
    (insertBy le x l).Pairwise (fun a b => le a b = true) := by
  induction l with
  | nil => simp [insertBy]
  | cons y ys ih =>
    rcases List.pairwise_cons.mp hl with ⟨hy, hys⟩
    by_cases hxy : le x y = true
    · have hall : (x :: y :: ys).Pairwise (fun a b => le a b = true) := by
        refine List.pairwise_cons.mpr ⟨?_, hl⟩
        intro z hz
        rcases List.mem_cons.mp hz with rfl | hz
        · exact hxy
        · exact htrans x y z hxy (hy z hz)
      simpa [insertBy, hxy] using hall
    · have hyx : le y x = true := (htot x y).resolve_left hxy
      have hall : (y :: insertBy le x ys).Pairwise (fun a b => le a b = true) := by
        refine List.pairwise_cons.mpr ⟨?_, ih hys⟩
        intro z hz
        rcases mem_insertBy.mp hz with rfl | hz
        · exact hyx
        · exact hy z hz
      simpa [insertBy, hxy] using hall

/-- `sortBy` sorts, for a total transitive comparator. -/
theorem pairwise_sortBy {le : α → α → Bool}
    (htot : ∀ a b, le a b = true ∨ le b a = true)
    (htrans : ∀ a b c, le a b = true → le b c = true → le a c = true)
    (l : List α) :
    (sortBy le l).Pairwise (fun a b => le a b = true) := by
  induction l with
  | nil => simp [sortBy]
  | cons x xs ih => exact pairwise_insertBy htot htrans ih

/-- `strLe` is total. -/
theorem strLe_total (a b : String) : strLe a b = true ∨ strLe b a = true :=
  charListLe_total a.data b.data

/-- `strLe` is transitive. -/
theorem strLe_trans {a b c : String} (hab : strLe a b = true) (hbc : strLe b c = true) :
    strLe a c = true :=
  charListLe_trans a.data b.data c.data hab hbc

/-- The search comparator is total. -/
theorem credLeService_total (a b : Credential) :
    credLeService a b = true ∨ credLeService b a = true :=
  strLe_total a.service_name b.service_name

/-- The search comparator is transitive. -/
theorem credLeService_trans (a b c : Credential)
    (hab : credLeService a b = true) (hbc : credLeService b c = true) :
    credLeService a c = true :=
  strLe_trans hab hbc

/-- One undecryptable row aborts the whole decryption loop. -/
theorem decryptAll_eq_none {c : Cipher} {r : Credential} :
    ∀ {l : List Credential}, r ∈ l → c.decrypt r.password_encrypted = none →
      decryptAll c l = none := by
  intro l
  induction l with
  | nil => intro h; cases h
  | cons a as ih =>
    intro hmem hbad
    rcases List.mem_cons.mp hmem with rfl | hmem
    · simp [decryptAll, decrypt_password, hbad]
    · cases hfirst : c.decrypt a.password_encrypted with
      | none => simp [decryptAll, decrypt_password, hfirst]
      | some pw => simp [decryptAll, decrypt_password, hfirst, ih hmem hbad]

/-- The per-group counts of a GROUP BY rollup sum to the row count. -/
theorem sum_groupCounts [DecidableEq α] (l : List α) :
    ((groupCounts l).map Prod.snd).sum = l.length := by
  have h := Multiset.toFinset_sum_count_eq (l : Multiset α)
  simp only [groupCounts, List.map_map]
  simpa [Finset.sum, Multiset.toFinset] using h

/-- C4 counterexample: the spec's third boundary example is off by one.
"Str0ng!Passw0rd" has 15 characters, so the length-16 point is not
awarded: the score is 5, not the claimed 6 (the classification is still
Strong). -/
theorem C4_score_example_counterexample :
    passwordScore "Str0ng!Passw0rd" = 5 ∧ passwordScore "Str0ng!Passw0rd" ≠ 6 := by
  decide

/-- C4 (amended): the scorer awards one point for each of length ≥ 12,
length ≥ 16, an uppercase letter, a lowercase letter, a digit, and a
symbol of the fixed punctuation set; the classification is Strong iff
the score is ≥ 5, Medium iff it is in [3, 5), Weak otherwise; "abc"
scores 1 (Weak), "Password1" scores 3 (Medium) and "Str0ng!Passw0rd"
scores 5 — not 6 — (Strong). -/
theorem C4_strength_scoring (password : String) :
    (calculate_password_strength password = "Strong" ↔ 5 ≤ passwordScore password) ∧
    (calculate_password_strength password = "Medium" ↔
      3 ≤ passwordScore password ∧ passwordScore password < 5) ∧
    (calculate_password_strength password = "Weak" ↔ passwordScore password < 3) ∧
    passwordScore "abc" = 1 ∧ calculate_password_strength "abc" = "Weak" ∧
    passwordScore "Password1" = 3 ∧ calculate_password_strength "Password1" = "Medium" ∧
    passwordScore "Str0ng!Passw0rd" = 5 ∧
    calculate_password_strength "Str0ng!Passw0rd" = "Strong" := by
  have hSM : ("Strong" : String) ≠ "Medium" := by decide
  have hSW : ("Strong" : String) ≠ "Weak" := by decide
  have hMW : ("Medium" : String) ≠ "Weak" := by decide
  refine ⟨?_, ?_, ?_, by decide, by decide, by decide, by decide, by decide, by decide⟩ <;>
    unfold calculate_password_strength <;> split_ifs with h1 h2 <;>
    simp [hSM, hSW, hMW, hSM.symm, hSW.symm, hMW.symm] <;> omega

/-- C5: when a live credential with the same (service_name, username)
pair exists, `add_credential` fails with the duplicate message and
returns the state unchanged — no credential row and no history row is
written. -/
theorem C5_duplicate_add_rejected_no_write (c : Cipher) (db : DBState) (now : Nat)
    (sn un pw : String) (em nt : Option String) (cat : String)
    (hdup : ∃ r ∈ db.credentials, r.service_name = sn ∧ r.username = un) :
    add_credential db c now sn un pw em nt cat =
      ({ success := false, message := "Credential already exists: " ++ sn ++ " - " ++ un,
         id := none }, db) := by
  rcases hdup with ⟨r, hr, hsn, hun⟩
  have hany : db.credentials.any (fun r => r.service_name == sn && r.username == un) = true :=
    List.any_eq_true.mpr ⟨r, hr, by simp [hsn, hun]⟩
  simp [add_credential, hany]

/-- C5 witness: adding (GitHub, alice) over a store already holding that
pair fails and leaves the store unchanged. -/
theorem C5_witness :
    add_credential oneDB toyCipher 3 "GitHub" "alice" "newpw" none none "General" =
      ({ success := false,
         message := "Credential already exists: " ++ "GitHub" ++ " - " ++ "alice",
         id := none }, oneDB) :=
  C5_duplicate_add_rejected_no_write toyCipher oneDB 3 "GitHub" "alice" "newpw" none none
    "General" ⟨ghCred, by decide, by decide, by decide⟩

/-- C10: the statistics are internally consistent — the by-category
counts and the by-strength counts each sum to total_credentials, since
GROUP BY partitions the live rows. -/
theorem C10_statistics_consistent (db : DBState) :
    ((get_statistics db).by_category.map Prod.snd).sum = (get_statistics db).total_credentials ∧
    ((get_statistics db).by_strength.map Prod.snd).sum = (get_statistics db).total_credentials := by
  constructor
  · simpa [get_statistics] using sum_groupCounts (db.credentials.map (fun r => r.category))
  · simpa [get_statistics] using sum_groupCounts (db.credentials.map (fun r => r.password_strength))

/-- The UNIQUE check of `add_credential` fails to fire when no live row
carries the pair. -/
theorem any_pair_eq_false {db : List Credential} {sn un : String}
    (hdup : ∀ r ∈ db, ¬(r.service_name = sn ∧ r.username = un)) :
    (db.any fun r => r.service_name == sn && r.username == un) = false := by
  rw [List.any_eq_false]
  intro x hx
  simpa using hdup x hx

/-- Evaluation of `get_credential_by_id` when `find?` locates a row:
the state gets the `last_accessed` touch, and the returned dict is the
decryption of the touched row (or `None` when decryption fails). -/
theorem get_by_id_eq (c : Cipher) (db : DBState) (now cid : Nat) (r : Credential)
    (hfind : db.credentials.find? (fun x => x.id == cid) = some r) :
    get_credential_by_id db c now cid =
      ((match c.decrypt r.password_encrypted with
        | some pw =>
          some { id := r.id, service_name := r.service_name, username := r.username,
                 email := r.email, password := pw, password_strength := r.password_strength,
                 notes := r.notes, category := r.category, created_at := r.created_at,
                 updated_at := r.updated_at, last_accessed := some now }
        | none => none),
       { db with credentials := (db.credentials.map (fun x =>
           if x.id == cid then { x with last_accessed := some now } else x)) }) := by
  have hrid : (r.id == cid) = true := by
    have h := List.find?_some (p := fun x : Credential => x.id == cid) hfind
    simpa using h
  have hp : ∀ x : Credential,
      ((if x.id == cid then { x with last_accessed := some now } else x).id == cid)
        = (x.id == cid) := by
    intro x
    by_cases h : (x.id == cid) = true
    · simp [h]
    · simp [h]
  have hfind2 : (db.credentials.map
      (fun x => if x.id == cid then { x with last_accessed := some now } else x)).find?
        (fun x => x.id == cid)
      = some { r with last_accessed := some now } := by
    rw [List.find?_map]
    have hfe : ((fun x : Credential => x.id == cid) ∘
        (fun x => if x.id == cid then { x with last_accessed := some now } else x))
        = (fun x => x.id == cid) := funext hp
    rw [hfe, hfind]
    have hrid2 : r.id = cid := by simpa using hrid
    simp [hrid2]
  cases hdec : c.decrypt r.password_encrypted with
  | some pw =>
    simp only [get_credential_by_id, hfind2, decrypt_password, hdec]
  | none =>
    simp only [get_credential_by_id, hfind2, decrypt_password, hdec]

/-- C1: a credential write (add with password P, or update supplying
password P) stores `encrypt P` — and never the plaintext P — both in
the credentials row and in any history row it writes: every row of the
post state is either an untouched pre-state row or carries exactly the
ciphertext `encrypt P`. -/
theorem C1_only_ciphertext_persisted (c : Cipher) (db : DBState) (now : Nat)
    (sn un P : String) (em nt : Option String) (cat : String)
    (cid : Nat) (f : UpdateFields)
    (hpw : f.password = some P) (hne : c.encrypt P ≠ P) :
    (∀ r ∈ (add_credential db c now sn un P em nt cat).2.credentials,
        r ∈ db.credentials ∨ (r.password_encrypted = c.encrypt P ∧ r.password_encrypted ≠ P)) ∧
    (∀ h ∈ (add_credential db c now sn un P em nt cat).2.history,
        h ∈ db.history ∨ (h.password_encrypted = c.encrypt P ∧ h.password_encrypted ≠ P)) ∧
    (∀ r ∈ (update_credential db c now cid f).2.credentials,
        r ∈ db.credentials ∨ (r.password_encrypted = c.encrypt P ∧ r.password_encrypted ≠ P)) ∧
    (∀ h ∈ (update_credential db c now cid f).2.history,
        h ∈ db.history ∨ (h.password_encrypted = c.encrypt P ∧ h.password_encrypted ≠ P)) := by
  by_cases hany : (db.credentials.any fun x => x.service_name == sn && x.username == un) = true
  case pos =>
    refine ⟨?_, ?_, ?_, ?_⟩
    · intro r hr
      simp [add_credential, hany] at hr
      exact Or.inl hr
    · intro h hh
      simp [add_credential, hany] at hh
      exact Or.inl hh
    · intro r hr
      simp only [update_credential, hpw] at hr
      simp at hr
      rcases hr with ⟨a, ha, rfl⟩
      by_cases hid : a.id = cid
      · right
        simp [hid, applyFields, encrypt_password]
        exact hne
      · left
        simpa [hid] using ha
    · intro h hh
      simp only [update_credential, hpw] at hh
      simp at hh
      rcases hh with hh | rfl
      · exact Or.inl hh
      · right
        simp [encrypt_password]
        exact hne
  case neg =>
    rw [Bool.not_eq_true] at hany
    refine ⟨?_, ?_, ?_, ?_⟩
    · intro r hr
      simp [add_credential, hany] at hr
      rcases hr with hr | rfl
      · exact Or.inl hr
      · right
        simp [encrypt_password]
        exact hne
    · intro h hh
      simp [add_credential, hany] at hh
      rcases hh with hh | rfl
      · exact Or.inl hh
      · right
        simp [encrypt_password]
        exact hne
    · intro r hr
      simp only [update_credential, hpw] at hr
      simp at hr
      rcases hr with ⟨a, ha, rfl⟩
      by_cases hid : a.id = cid
      · right
        simp [hid, applyFields, encrypt_password]
        exact hne
      · left
        simpa [hid] using ha
    · intro h hh
      simp only [update_credential, hpw] at hh
      simp at hh
      rcases hh with hh | rfl
      · exact Or.inl hh
      · right
        simp [encrypt_password]
        exact hne

/-- C1 witness: concrete add and update with password "pw" through the
toy cipher persist only the ciphertext, never "pw". -/
theorem C1_witness :
    (∀ r ∈ (add_credential emptyDB toyCipher 0 "GitHub" "alice" "pw" none none "General").2.credentials,
        r ∈ emptyDB.credentials ∨
          (r.password_encrypted = toyCipher.encrypt "pw" ∧ r.password_encrypted ≠ "pw")) ∧
    (∀ h ∈ (add_credential emptyDB toyCipher 0 "GitHub" "alice" "pw" none none "General").2.history,
        h ∈ emptyDB.history ∨
          (h.password_encrypted = toyCipher.encrypt "pw" ∧ h.password_encrypted ≠ "pw")) ∧
    (∀ r ∈ (update_credential emptyDB toyCipher 0 1 { password := some "pw" }).2.credentials,
        r ∈ emptyDB.credentials ∨
          (r.password_encrypted = toyCipher.encrypt "pw" ∧ r.password_encrypted ≠ "pw")) ∧
    (∀ h ∈ (update_credential emptyDB toyCipher 0 1 { password := some "pw" }).2.history,
        h ∈ emptyDB.history ∨
          (h.password_encrypted = toyCipher.encrypt "pw" ∧ h.password_encrypted ≠ "pw")) :=
  C1_only_ciphertext_persisted toyCipher emptyDB 0 "GitHub" "alice" "pw" none none "General" 1
    { password := some "pw" } rfl (by decide)

/-- C3: after a successful `add_credential` with password P over a
well-formed store (AUTOINCREMENT invariant, no duplicate pair), the add
reports success with the fresh id, and `get_credential_by_id` on that id
returns a record whose decrypted password is exactly P. -/
theorem C3_add_then_get_roundtrip (c : Cipher) (db : DBState) (now now2 : Nat)
    (sn un P : String) (em nt : Option String) (cat : String)
    (hids : ∀ r ∈ db.credentials, r.id < db.nextCredId)
    (hdup : ∀ r ∈ db.credentials, ¬(r.service_name = sn ∧ r.username = un)) :
    (add_credential db c now sn un P em nt cat).1.success = true ∧
    (add_credential db c now sn un P em nt cat).1.id = some db.nextCredId ∧
    ∃ rec,
      (get_credential_by_id (add_credential db c now sn un P em nt cat).2 c now2
        db.nextCredId).1 = some rec ∧ rec.password = P := by
  have hany := any_pair_eq_false hdup
  refine ⟨by simp [add_credential, hany], by simp [add_credential, hany], ?_⟩
  have hfind : (add_credential db c now sn un P em nt cat).2.credentials.find?
      (fun x => x.id == db.nextCredId) = some
      { id := db.nextCredId, service_name := sn, username := un, email := em,
        password_encrypted := c.encrypt P,
        password_strength := calculate_password_strength P,
        notes := nt, category := some cat, created_at := now, updated_at := now,
        last_accessed := none } := by
    have hcreds : (add_credential db c now sn un P em nt cat).2.credentials
        = db.credentials ++
          [{ id := db.nextCredId, service_name := sn, username := un, email := em,
             password_encrypted := c.encrypt P,
             password_strength := calculate_password_strength P,
             notes := nt, category := some cat, created_at := now, updated_at := now,
             last_accessed := none }] := by
      simp [add_credential, hany, encrypt_password]
    rw [hcreds, List.find?_append]
    have h1 : db.credentials.find? (fun x => x.id == db.nextCredId) = none := by
      rw [List.find?_eq_none]
      intro x hx
      have hlt := hids x hx
      simp only [beq_iff_eq]
      omega
    rw [h1]
    simp
  have hpair := get_by_id_eq c (add_credential db c now sn un P em nt cat).2 now2
    db.nextCredId _ hfind
  have h1 : (get_credential_by_id (add_credential db c now sn un P em nt cat).2 c now2
      db.nextCredId).1 = some
      { id := db.nextCredId, service_name := sn, username := un, email := em,
        password := P, password_strength := calculate_password_strength P,
        notes := nt, category := some cat, created_at := now, updated_at := now,
        last_accessed := some now2 } := by
    rw [hpair]
    simp [c.roundtrip]
  exact ⟨_, h1, rfl⟩

/-- C3 witness: adding ("GitHub", "alice", "pw") to the empty store and
reading id 1 back returns password "pw". -/
theorem C3_witness :
    (add_credential emptyDB toyCipher 0 "GitHub" "alice" "pw" none none "General").1.success
      = true ∧
    (add_credential emptyDB toyCipher 0 "GitHub" "alice" "pw" none none "General").1.id
      = some emptyDB.nextCredId ∧
    ∃ rec,
      (get_credential_by_id
        (add_credential emptyDB toyCipher 0 "GitHub" "alice" "pw" none none "General").2
        toyCipher 5 emptyDB.nextCredId).1 = some rec ∧ rec.password = "pw" :=
  C3_add_then_get_roundtrip toyCipher emptyDB 0 5 "GitHub" "alice" "pw" none none "General"
    (by simp [emptyDB]) (by simp [emptyDB])

/-- C2 (code-bug evidence): after adding one credential (row id 1, one
history row), delete(1) reports success and removes the credential row,
and a subsequent getById(1) is NotFound — but the history row with
credential_id 1 survives as an orphan: the declared ON DELETE CASCADE
never fires because the sqlite3 connection never enables
PRAGMA foreign_keys. -/
theorem C2_delete_leaves_orphan_history :
    (delete_credential
      (add_credential emptyDB toyCipher 0 "GitHub" "alice" "pw" none none "General").2 1).1
      = { success := true, message := "Credential deleted", id := none } ∧
    (delete_credential
      (add_credential emptyDB toyCipher 0 "GitHub" "alice" "pw" none none "General").2 1).2.credentials
      = [] ∧
    ((delete_credential
      (add_credential emptyDB toyCipher 0 "GitHub" "alice" "pw" none none "General").2 1).2.history.map
        (fun h => h.credential_id)) = [1] ∧
    (get_credential_by_id
      (delete_credential
        (add_credential emptyDB toyCipher 0 "GitHub" "alice" "pw" none none "General").2 1).2
      toyCipher 9 1).1 = none := by
  decide

/-- C6 (code-bug evidence): update on a nonexistent id 42 with a
supplied password does not report NotFound: it returns success
("Credential updated") and commits an orphan password_history row with
credential_id 42, violating the claimed no-partial-state contract.  The
no-fields case does return the distinct "No updates provided" result. -/
theorem C6_update_missing_id_reports_success_and_writes_history :
    (update_credential emptyDB toyCipher 7 42 { password := some "x" }).1
      = { success := true, message := "Credential updated", id := none } ∧
    (update_credential emptyDB toyCipher 7 42 { password := some "x" }).2.credentials = [] ∧
    (update_credential emptyDB toyCipher 7 42 { password := some "x" }).2.history
      = [{ id := 1, credential_id := 42, password_encrypted := "!x", generated_at := 7 }] ∧
    (update_credential emptyDB toyCipher 7 42 {}).1
      = { success := false, message := "No updates provided", id := none } := by
  decide

/-- C7 counterexample: the stored row has last_accessed = NULL, yet the
record returned by getById carries the freshly touched timestamp
(some 5) — the returned content reflects the state AFTER the
last_accessed touch, not before it, because the SELECT runs after the
UPDATE. -/
theorem C7_counterexample :
    ghCred.last_accessed = none ∧
    ((get_credential_by_id oneDB toyCipher 5 1).1.map (fun rec => rec.last_accessed))
      = some (some 5) := by
  decide

/-- C7 (amended): getById decrypts and returns the credential and, as a
side effect, sets last_accessed to the current time; the returned
record reflects the state AFTER that touch — its last_accessed field is
the touched timestamp — while all its other fields are those of the
stored row. -/
theorem C7_getById_touches_last_accessed (c : Cipher) (db : DBState) (now cid : Nat)
    (r : Credential) (pw : String)
    (hfind : db.credentials.find? (fun x => x.id == cid) = some r)
    (hdec : c.decrypt r.password_encrypted = some pw) :
    (get_credential_by_id db c now cid).1 = some
      { id := r.id, service_name := r.service_name, username := r.username,
        email := r.email, password := pw, password_strength := r.password_strength,
        notes := r.notes, category := r.category, created_at := r.created_at,
        updated_at := r.updated_at, last_accessed := some now } ∧
    (get_credential_by_id db c now cid).2.credentials = (db.credentials.map (fun x =>
      if x.id == cid then { x with last_accessed := some now } else x)) ∧
    (get_credential_by_id db c now cid).2.history = db.history := by
  have hpair := get_by_id_eq c db now cid r hfind
  rw [hpair]
  simp [hdec]

/-- C7 witness: reading id 1 of the one-credential store at time 5. -/
theorem C7_witness :
    (get_credential_by_id oneDB toyCipher 5 1).1 = some
      { id := ghCred.id, service_name := ghCred.service_name, username := ghCred.username,
        email := ghCred.email, password := "pw", password_strength := ghCred.password_strength,
        notes := ghCred.notes, category := ghCred.category, created_at := ghCred.created_at,
        updated_at := ghCred.updated_at, last_accessed := some 5 } ∧
    (get_credential_by_id oneDB toyCipher 5 1).2.credentials = (oneDB.credentials.map (fun x =>
      if x.id == 1 then { x with last_accessed := some 5 } else x)) ∧
    (get_credential_by_id oneDB toyCipher 5 1).2.history = oneDB.history :=
  C7_getById_touches_last_accessed toyCipher oneDB 5 1 ghCred "pw" (by decide) (by decide)

/-- C9 counterexample: a credential whose stored ciphertext fails
decryption exists, yet getById returns None (indistinguishable from
not-found) and getAll with decryption returns the empty list — the
failure is masked, not surfaced as a distinct error. -/
theorem C9_counterexample :
    badDB.credentials ≠ [] ∧
    (get_credential_by_id badDB toyCipher 0 1).1 = none ∧
    get_all_credentials badDB toyCipher true = [] := by
  decide

/-- C9 (amended): when a stored ciphertext is malformed or fails
authentication, the decrypting operations mask the failure instead of
surfacing a distinct error: getById returns None exactly like a missing
id, and getAll with decrypt=true returns the empty list. -/
theorem C9_decryption_failure_masked (c : Cipher) (db : DBState) (now cid : Nat)
    (r : Credential)
    (hfind : db.credentials.find? (fun x => x.id == cid) = some r)
    (hbad : c.decrypt r.password_encrypted = none) :
    (get_credential_by_id db c now cid).1 = none ∧
    (∀ r2 ∈ db.credentials, c.decrypt r2.password_encrypted = none →
      get_all_credentials db c true = []) := by
  constructor
  · have hpair := get_by_id_eq c db now cid r hfind
    rw [hpair]
    simp [hbad]
  · intro r2 hmem hbad2
    have hmem2 : r2 ∈ sortBy credLeSU db.credentials := mem_sortBy.mpr hmem
    simp [get_all_credentials, decryptAll_eq_none hmem2 hbad2]

/-- C9 witness: the bad-ciphertext store evaluated concretely. -/
theorem C9_witness :
    (get_credential_by_id badDB toyCipher 0 1).1 = none ∧
    (∀ r2 ∈ badDB.credentials, toyCipher.decrypt r2.password_encrypted = none →
      get_all_credentials badDB toyCipher true = []) :=
  C9_decryption_failure_masked toyCipher badDB 0 1
    { ghCred with password_encrypted := "garbage" } (by decide) (by decide)

/-- C8 counterexample: the search term is spliced into a LIKE pattern
unescaped, so `_` acts as a single-character wildcard: searching "_"
over a store whose only credential contains no underscore in any
searched column (and has NULL email) still returns that row, although
"_" is not a case-insensitive substring of service_name, username or
category. -/
theorem C8_counterexample :
    (search_credentials oneDB "_").length = 1 ∧
    specSubstringCI "_" "GitHub" = false ∧
    specSubstringCI "_" "alice" = false ∧
    specSubstringCI "_" "General" = false ∧
    (oneDB.credentials.map (fun r => r.email)) = [none] := by
  decide

/-- C8 (amended): search returns exactly the projections (onto the six
non-secret SELECTed columns — no password and no ciphertext field
exists in a returned record) of the credentials matched by the SQLite
LIKE pattern `%term%` — ASCII-case-insensitively, with `%` and `_` of
the term acting as wildcards — against service_name, username, email or
category, and the result is ordered by service_name ascending. -/
theorem C8_search_like_semantics (db : DBState) (term : String) (rec : SearchRecord) :
    (rec ∈ search_credentials db term ↔
      ∃ r ∈ db.credentials, credMatches term r = true ∧ rec = toSearchRecord r) ∧
    (search_credentials db term).Pairwise
      (fun a b => strLe a.service_name b.service_name = true) := by
  constructor
  · simp only [search_credentials, List.mem_map, mem_sortBy, List.mem_filter]
    constructor
    · rintro ⟨r, ⟨hr, hm⟩, rfl⟩
      exact ⟨r, hr, hm, rfl⟩
    · rintro ⟨r, hr, hm, rfl⟩
      exact ⟨r, ⟨hr, hm⟩, rfl⟩
  · rw [search_credentials, List.pairwise_map]
    have hs := pairwise_sortBy credLeService_total credLeService_trans
      (db.credentials.filter (credMatches term))
    exact hs.imp (fun h => h)
